import Mathlib

set_option maxRecDepth 4000

/-!
Shallow embedding of the falling-block game engine found in src/App.tsx,
src/constants.ts and src/types.ts, together with proofs about its
collision detection, rotation, locking, line clearing, scoring, level
progression, hold mechanism and freeze behaviour.

JS numbers that hold grid coordinates are modelled as Int (piece rows may
be negative while a piece enters the field); counters (score, lines,
level) are Nat.  A grid cell holds the settled piece's color string or
nothing (`null` in the source).  Randomness is modelled by passing the
kind the random source would produce as an explicit argument to every
operation that draws a new piece.
-/

/-- The seven tetromino kinds, from types.ts. -/
inductive TetrominoType
  | I | J | L | O | S | T | Z
deriving DecidableEq

/-- A coordinate pair, from types.ts. -/
structure Position where
  x : Int
  y : Int
deriving DecidableEq

/-- A shape matrix: rows of 0/1 occupancy numbers, as in constants.ts. -/
abbrev Shape := List (List Nat)

/-- A grid cell: the color tag of a settled piece, or empty (`null`). -/
abbrev Cell := Option String

/-- The playfield: a list of rows of cells, from types.ts. -/
abbrev Grid := List (List Cell)

/-- An active, queued or held piece, from types.ts. -/
structure Tetromino where
  type : TetrominoType
  shape : Shape
  color : String
  position : Position
deriving DecidableEq

/-- Session status, from types.ts. -/
inductive Status
  | PLAYING | PAUSED | GAME_OVER | IDLE
deriving DecidableEq

/-- Field configuration, from types.ts. -/
structure Config where
  width : Nat
  height : Nat
  baseSpeed : Nat
deriving DecidableEq

/-- The whole session state, from types.ts. -/
structure GameState where
  grid : Grid
  currentPiece : Option Tetromino
  nextPiece : Tetromino
  heldPiece : Option Tetromino
  canHold : Bool
  isFrozen : Bool
  score : Nat
  lines : Nat
  level : Nat
  status : Status
  config : Config
deriving DecidableEq

/-- A catalog entry of constants.ts: shape matrix and color tag. -/
structure TetrominoDef where
  shape : Shape
  color : String
deriving DecidableEq

/-- The piece catalog TETROMINOES of constants.ts. -/
def TETROMINOES : TetrominoType → TetrominoDef
  | .I => ⟨[[0, 0, 0, 0], [1, 1, 1, 1], [0, 0, 0, 0], [0, 0, 0, 0]],
      "bg-cyan-400 border-cyan-300 shadow-[0_0_10px_rgba(34,211,238,0.8)]"⟩
  | .J => ⟨[[1, 0, 0], [1, 1, 1], [0, 0, 0]],
      "bg-blue-600 border-blue-400 shadow-[0_0_10px_rgba(37,99,235,0.8)]"⟩
  | .L => ⟨[[0, 0, 1], [1, 1, 1], [0, 0, 0]],
      "bg-orange-500 border-orange-300 shadow-[0_0_10px_rgba(249,115,22,0.8)]"⟩
  | .O => ⟨[[1, 1], [1, 1]],
      "bg-yellow-400 border-yellow-200 shadow-[0_0_10px_rgba(250,204,21,0.8)]"⟩
  | .S => ⟨[[0, 1, 1], [1, 1, 0], [0, 0, 0]],
      "bg-green-500 border-green-300 shadow-[0_0_10px_rgba(34,197,94,0.8)]"⟩
  | .T => ⟨[[0, 1, 0], [1, 1, 1], [0, 0, 0]],
      "bg-purple-500 border-purple-300 shadow-[0_0_10px_rgba(168,85,247,0.8)]"⟩
  | .Z => ⟨[[1, 1, 0], [0, 1, 1], [0, 0, 0]],
      "bg-red-500 border-red-300 shadow-[0_0_10px_rgba(239,68,68,0.8)]"⟩

/-- INITIAL_WIDTH of constants.ts. -/
def INITIAL_WIDTH : Nat := 10

/-- INITIAL_HEIGHT of constants.ts. -/
def INITIAL_HEIGHT : Nat := 20

/-- The SCORING table of constants.ts; the `|| 0` fallback of the lookup in
lockPiece is folded into the catch-all case. -/
def SCORING : Nat → Nat
  | 1 => 100
  | 2 => 300
  | 3 => 500
  | 4 => 800
  | _ => 0

/-- Cell of a shape matrix at row y, column x; out-of-range reads yield 0,
matching the falsiness of `undefined` in the source. -/
def shapeCell (s : Shape) (y x : Nat) : Nat :=
  (s.getD y []).getD x 0

/-- Width of the grid, `grid[0].length` in the source. -/
def gridWidth (g : Grid) : Nat :=
  (g.headD []).length

/-- Cell of the grid at (signed) row y and column x; out-of-range reads
yield the empty cell, matching the falsiness of `undefined`. -/
def cellAt (g : Grid) (y x : Int) : Cell :=
  if 0 ≤ y ∧ 0 ≤ x then (g.getD y.toNat []).getD x.toNat none else none

/-- getRandomPiece of App.tsx, with the randomly drawn kind passed in as t:
a piece built from the catalog entry, positioned at
x = floor(width / 2) - 2, y = 0. -/
def getRandomPiece (width : Nat) (t : TetrominoType) : Tetromino :=
  { type := t
    shape := (TETROMINOES t).shape
    color := (TETROMINOES t).color
    position := ⟨((width / 2 : Nat) : Int) - 2, 0⟩ }

/-- checkCollision of App.tsx: scans every occupied cell of the override
shape (or the piece's own shape) at the piece's position shifted by
(moveX, moveY) and reports a hit when the cell is left of column 0, at or
past the right edge, at or past the bottom edge, or over a settled cell at
a non-negative row. -/
def checkCollision (piece : Tetromino) (grid : Grid) (moveX moveY : Int)
    (newShape : Option Shape) : Bool :=
  let shape := newShape.getD piece.shape
  (List.range shape.length).any fun y =>
    (List.range (shape.getD y []).length).any fun x =>
      shapeCell shape y x != 0 &&
        (decide (piece.position.x + x + moveX < 0) ||
         decide ((gridWidth grid : Int) ≤ piece.position.x + x + moveX) ||
         decide ((grid.length : Int) ≤ piece.position.y + y + moveY) ||
         (decide (0 ≤ piece.position.y + y + moveY) &&
          (cellAt grid (piece.position.y + y + moveY)
            (piece.position.x + x + moveX)).isSome))

/-- The rotation transform inside rotate of App.tsx: transpose the matrix
(the new row count is the length of row 0, exactly as
`shape[0].map((_, index) => shape.map(row => row[index]))` computes it),
then reverse each row (clockwise) or reverse the row order
(counter-clockwise). -/
def rotateShape (shape : Shape) (clockwise : Bool) : Shape :=
  let newShape :=
    (List.range (shape.headD []).length).map fun i =>
      shape.map fun row => row.getD i 0
  if clockwise then newShape.map List.reverse else newShape.reverse

/-- rotate of App.tsx as a state transition: no-op without an active piece,
outside PLAYING, or while frozen; otherwise the rotated shape is accepted
only if it passes checkCollision at offset (0, 0). -/
def rotateOp (clockwise : Bool) (s : GameState) : GameState :=
  match s.currentPiece with
  | none => s
  | some p =>
    if s.status ≠ Status.PLAYING ∨ s.isFrozen then s
    else
      let newShape := rotateShape p.shape clockwise
      if checkCollision p s.grid 0 0 (some newShape) then s
      else { s with currentPiece := some { p with shape := newShape } }

/-- A cell write `newGrid[gridY][gridX] = color` from lockPiece;
out-of-range writes leave the grid unchanged (lockPiece only writes cells
of legally placed pieces). -/
def setCell (g : Grid) (y x : Int) (c : String) : Grid :=
  if 0 ≤ y ∧ 0 ≤ x then
    g.set y.toNat ((g.getD y.toNat []).set x.toNat (some c)) else g

/-- The stamping loop of lockPiece: every occupied shape cell with a
non-negative grid row is written into a copy of the grid. -/
def stamp (piece : Tetromino) (grid : Grid) : Grid :=
  (List.range piece.shape.length).foldl
    (fun g y =>
      (List.range (piece.shape.getD y []).length).foldl
        (fun g1 x =>
          if shapeCell piece.shape y x != 0 then
            (if (0 : Int) ≤ piece.position.y + y then
              setCell g1 (piece.position.y + y) (piece.position.x + x)
                piece.color
            else g1)
          else g1)
        g)
    grid

/-- Test of lockPiece's filter: `row.every(cell => cell !== null)`. -/
def isFullRow (row : List Cell) : Bool :=
  row.all fun c => c.isSome

/-- One iteration of the `while (filteredGrid.length < config.height)
unshift` loop of lockPiece, with explicit fuel; the loop runs at most
height times. -/
def padRowsGo (h w : Nat) : Nat → Grid → Grid
  | 0, g => g
  | fuel + 1, g =>
    if g.length < h then
      padRowsGo h w fuel (List.replicate w (none : Cell) :: g)
    else g

/-- The padding loop of lockPiece: prepend empty rows until the grid is
config.height rows tall again. -/
def padRows (h w : Nat) (g : Grid) : Grid :=
  padRowsGo h w h g

/-- The line-clear step of lockPiece: drop every full row, then pad the
grid back to the configured height with empty rows on top. -/
def clearFullRows (h w : Nat) (g : Grid) : Grid :=
  padRows h w (g.filter fun row => !(isFullRow row))

/-- Number of rows the filter of lockPiece removes (the source counts them
inside the same pass that filters; the count equals the number of full
rows). -/
def clearedCount (g : Grid) : Nat :=
  (g.filter fun row => isFullRow row).length

/-- lockPiece of App.tsx, with the randomly drawn kind of the refilled
queue passed in as t: stamp the active piece, clear full rows, update
score from the SCORING table times the pre-resolution level, recompute
lines and level, then either end the game (when the queued piece collides
at its spawn position) or install the queued piece and refill the queue.
In the game-over branch only grid, active piece, status, score and the
frozen flag change. -/
def lockPiece (t : TetrominoType) (s : GameState) : GameState :=
  match s.currentPiece with
  | none => s
  | some currentPiece =>
    let newGrid := stamp currentPiece s.grid
    let clearedLinesCount := clearedCount newGrid
    let filteredGrid := clearFullRows s.config.height s.config.width newGrid
    let newScore := s.score +
      (if 0 < clearedLinesCount then SCORING clearedLinesCount * s.level
       else 0)
    let newLinesTotal := s.lines + clearedLinesCount
    let newLevel := newLinesTotal / 10 + 1
    let spawnPos : Position := ⟨((s.config.width / 2 : Nat) : Int) - 2, 0⟩
    if checkCollision { s.nextPiece with position := spawnPos }
        filteredGrid 0 0 none then
      { s with
          grid := filteredGrid
          currentPiece := none
          status := Status.GAME_OVER
          score := newScore
          isFrozen := false }
    else
      { s with
          grid := filteredGrid
          currentPiece := some { s.nextPiece with position := spawnPos }
          nextPiece := getRandomPiece s.config.width t
          canHold := true
          isFrozen := false
          score := newScore
          lines := newLinesTotal
          level := newLevel }

/-- move of App.tsx, with the kind a triggered lock would draw passed in
as t: no-op without an active piece or outside PLAYING; while frozen only
lateral motion is allowed; a collision-free move translates the piece; a
blocked descent locks; a blocked lateral move changes nothing. -/
def move (dx dy : Int) (t : TetrominoType) (s : GameState) : GameState :=
  match s.currentPiece with
  | none => s
  | some p =>
    if s.status ≠ Status.PLAYING then s
    else if s.isFrozen ∧ dy ≠ 0 then s
    else if checkCollision p s.grid dx dy none then
      (if 0 < dy then lockPiece t s else s)
    else
      { s with
          currentPiece := some
            { p with position := ⟨p.position.x + dx, p.position.y + dy⟩ } }

/-- One probe of the hardDrop loop of App.tsx, with explicit fuel: keep
increasing the drop distance while the next row down is collision-free. -/
def dropDistanceGo (p : Tetromino) (g : Grid) : Nat → Nat → Nat
  | 0, d => d
  | fuel + 1, d =>
    if checkCollision p g 0 ((d : Int) + 1) none then d
    else dropDistanceGo p g fuel (d + 1)

/-- Fuel that always outlasts the hardDrop loop: any occupied shape cell
collides with the bottom edge after this many rows of descent. -/
def dropFuel (p : Tetromino) (g : Grid) : Nat :=
  g.length + p.shape.length + p.position.y.natAbs + 1

/-- The drop distance computed by the while loop of hardDrop. -/
def dropDistance (p : Tetromino) (g : Grid) : Nat :=
  dropDistanceGo p g (dropFuel p g) 0

/-- hardDrop of App.tsx, with the kind the lock draws passed in as t:
relocate the active piece by the computed drop distance, then lock; note
the frozen flag is not consulted. -/
def hardDrop (t : TetrominoType) (s : GameState) : GameState :=
  match s.currentPiece with
  | none => s
  | some p =>
    if s.status ≠ Status.PLAYING then s
    else
      lockPiece t
        { s with
            currentPiece := some
              { p with position :=
                ⟨p.position.x, p.position.y + (dropDistance p s.grid : Int)⟩ } }

/-- holdPiece of App.tsx, with the kind drawn for a refilled queue passed
in as t: no-op without an active piece, without the can-hold flag, or
outside PLAYING; a first hold stores the active kind and installs the
queued piece at the spawn position, a later hold swaps with the stored
kind; neither install is collision-checked. -/
def holdPiece (t : TetrominoType) (s : GameState) : GameState :=
  match s.currentPiece with
  | none => s
  | some p =>
    if s.canHold = false ∨ s.status ≠ Status.PLAYING then s
    else
      let defn := TETROMINOES p.type
      let newHeldPiece : Tetromino := ⟨p.type, defn.shape, defn.color, ⟨0, 0⟩⟩
      let spawnPos : Position := ⟨((s.config.width / 2 : Nat) : Int) - 2, 0⟩
      match s.heldPiece with
      | none =>
        { s with
            heldPiece := some newHeldPiece
            currentPiece := some { s.nextPiece with position := spawnPos }
            nextPiece := getRandomPiece s.config.width t
            canHold := false }
      | some held =>
        let heldDef := TETROMINOES held.type
        { s with
            heldPiece := some newHeldPiece
            currentPiece := some ⟨held.type, heldDef.shape, heldDef.color, spawnPos⟩
            canHold := false }

/-- toggleFreeze of App.tsx: flip the frozen flag while PLAYING. -/
def toggleFreeze (s : GameState) : GameState :=
  if s.status ≠ Status.PLAYING then s
  else { s with isFrozen := !s.isFrozen }

/-- An empty grid of the given dimensions, as built in startGame. -/
def emptyGrid (h w : Nat) : Grid :=
  List.replicate h (List.replicate w (none : Cell))

/-- The initial useState value of App.tsx (status IDLE, no active piece,
an I piece pre-queued at the origin). -/
def initialState : GameState :=
  { grid := emptyGrid INITIAL_HEIGHT INITIAL_WIDTH
    currentPiece := none
    nextPiece := ⟨.I, (TETROMINOES .I).shape, (TETROMINOES .I).color, ⟨0, 0⟩⟩
    heldPiece := none
    canHold := true
    isFrozen := false
    score := 0
    lines := 0
    level := 1
    status := Status.IDLE
    config := ⟨INITIAL_WIDTH, INITIAL_HEIGHT, 500⟩ }

/-- startGame of App.tsx, with the two randomly drawn kinds passed in:
fresh empty grid, fresh active and queued pieces, counters reset, status
PLAYING.  The explicit position written by the source equals the one
getRandomPiece already produced. -/
def startGame (t1 t2 : TetrominoType) (s : GameState) : GameState :=
  { s with
      grid := emptyGrid INITIAL_HEIGHT INITIAL_WIDTH
      currentPiece := some (getRandomPiece INITIAL_WIDTH t1)
      nextPiece := getRandomPiece INITIAL_WIDTH t2
      status := Status.PLAYING
      score := 0
      lines := 0
      level := 1
      isFrozen := false
      heldPiece := none
      canHold := true }

/-- The while loop of moveToEnd (the move-to-wall operation implemented
in the App document appended in src/constants.ts): keep adding dx to the
accumulated offset finalDx while the offset one step further is
collision-free, with explicit fuel.  The fuel outlasts the loop for the
lateral steps the key handler issues (dx = 1 or dx = -1 on a piece with
an occupied cell), for which a side wall is always reached; for dx = 0
on a legally placed piece the source loop would not terminate. -/
def moveToEndGo (p : Tetromino) (g : Grid) (dx : Int) : Nat → Int → Int
  | 0, finalDx => finalDx
  | fuel + 1, finalDx =>
    if checkCollision p g (finalDx + dx) 0 none then finalDx
    else moveToEndGo p g dx fuel (finalDx + dx)

/-- Fuel that outlasts the moveToEnd loop for unit lateral steps. -/
def moveToEndFuel (p : Tetromino) (g : Grid) : Nat :=
  gridWidth g + (p.shape.headD []).length + p.position.x.natAbs + 1

/-- moveToEnd of the App document appended in src/constants.ts: no-op
without an active piece, outside PLAYING, or while frozen; otherwise the
active piece slides laterally by the accumulated offset the probe loop
reaches (its row is unchanged); no lock is triggered. -/
def moveToEnd (dx : Int) (s : GameState) : GameState :=
  match s.currentPiece with
  | none => s
  | some p =>
    if s.status ≠ Status.PLAYING ∨ s.isFrozen then s
    else
      { s with
          currentPiece := some
            { p with position :=
              ⟨p.position.x +
                moveToEndGo p s.grid dx (moveToEndFuel p s.grid) 0,
               p.position.y⟩ } }

/-! Specification-side predicates and the characterization of
checkCollision. -/

/-- The collision property as the spec states it: some occupied cell of
the shape, placed at the piece's position plus the offset, is left of
column 0, at or past the grid width, at or past the grid height, or over
a settled cell at a non-negative row. -/
def collides (p : Tetromino) (g : Grid) (mx my : Int) (shape : Shape) : Prop :=
  ∃ y, y < shape.length ∧ ∃ x, x < (shape.getD y []).length ∧
    (shapeCell shape y x ≠ 0 ∧
      (p.position.x + x + mx < 0 ∨
       (gridWidth g : Int) ≤ p.position.x + x + mx ∨
       (g.length : Int) ≤ p.position.y + y + my ∨
       (0 ≤ p.position.y + y + my ∧
        (cellAt g (p.position.y + y + my) (p.position.x + x + mx)).isSome = true)))

/-- The active-piece safety property as claimed: every occupied shape
cell, at the piece's position, is within the side walls, above the floor,
and, when its row is visible, over an empty grid cell. -/
def pieceInBounds (p : Tetromino) (g : Grid) : Prop :=
  ∀ y, y < p.shape.length → ∀ x, x < (p.shape.getD y []).length →
    shapeCell p.shape y x ≠ 0 →
    (0 ≤ p.position.x + x ∧
     p.position.x + x < (gridWidth g : Int) ∧
     p.position.y + y < (g.length : Int) ∧
     (0 ≤ p.position.y + y →
      cellAt g (p.position.y + y) (p.position.x + x) = none))

instance decPieceInBounds (p : Tetromino) (g : Grid) :
    Decidable (pieceInBounds p g) :=
  decidable_of_iff (¬ (checkCollision p g 0 0 none = true)) (by
    unfold checkCollision pieceInBounds
    simp only [Option.getD_none, List.any_eq_true, List.mem_range,
      Bool.and_eq_true, Bool.or_eq_true, decide_eq_true_eq, bne_iff_ne,
      ne_eq, exists_prop, or_assoc]
    push_neg
    simp only [add_zero, not_lt, not_le, Option.not_isSome_iff_eq_none])

/-- The C2 invariant: an active piece, when present, satisfies
pieceInBounds against the settled grid. -/
def invariant (s : GameState) : Prop :=
  ∀ p, s.currentPiece = some p → pieceInBounds p s.grid

instance decInvariant (s : GameState) : Decidable (invariant s) :=
  match h : s.currentPiece with
  | none =>
    isTrue (by intro p hp; rw [h] at hp; exact Option.noConfusion hp)
  | some p =>
    decidable_of_iff (pieceInBounds p s.grid) (by
      constructor
      · intro hpb q hq
        rw [h] at hq
        cases Option.some.inj hq
        exact hpb
      · intro hi
        exact hi p h)

/-! Reachability: one session step is any of the user-facing operations;
gravity descent is the automatic move(0, 1) issued by the game loop. -/

/-- One step by any session operation (randomly drawn kinds explicit). -/
inductive GameStep : GameState → GameState → Prop
  | mv (dx dy : Int) (t : TetrominoType) (s : GameState) :
      GameStep s (move dx dy t s)
  | mte (dir : Int) (s : GameState) : GameStep s (moveToEnd dir s)
  | rot (cw : Bool) (s : GameState) : GameStep s (rotateOp cw s)
  | hd (t : TetrominoType) (s : GameState) : GameStep s (hardDrop t s)
  | hld (t : TetrominoType) (s : GameState) : GameStep s (holdPiece t s)
  | tgl (s : GameState) : GameStep s (toggleFreeze s)
  | grav (t : TetrominoType) (s : GameState) : GameStep s (move 0 1 t s)

/-- States reachable from a started session by the session operations. -/
inductive Reachable : GameState → Prop
  | start (t1 t2 : TetrominoType) : Reachable (startGame t1 t2 initialState)
  | step {s s1 : GameState} : Reachable s → GameStep s s1 → Reachable s1

/-- One step by any session operation except hold. -/
inductive SafeStep : GameState → GameState → Prop
  | mv (dx dy : Int) (t : TetrominoType) (s : GameState) :
      SafeStep s (move dx dy t s)
  | mte (dir : Int) (s : GameState) : SafeStep s (moveToEnd dir s)
  | rot (cw : Bool) (s : GameState) : SafeStep s (rotateOp cw s)
  | hd (t : TetrominoType) (s : GameState) : SafeStep s (hardDrop t s)
  | tgl (s : GameState) : SafeStep s (toggleFreeze s)
  | grav (t : TetrominoType) (s : GameState) : SafeStep s (move 0 1 t s)

/-- States reachable from a started session without using hold. -/
inductive ReachableSansHold : GameState → Prop
  | start (t1 t2 : TetrominoType) :
      ReachableSansHold (startGame t1 t2 initialState)
  | step {s s1 : GameState} :
      ReachableSansHold s → SafeStep s s1 → ReachableSansHold s1

/-! Level derivation from the lines counter. -/

/-- The level/lines relationship of the spec: level is one more than a
tenth of the session's lines counter. -/
def levelMatchesLines (s : GameState) : Prop :=
  s.level = s.lines / 10 + 1

/-- A square shape matrix: every row is as long as the matrix is tall. -/
def IsSquareShape (sh : Shape) : Prop :=
  ∀ r ∈ sh, r.length = sh.length

/-- A settled cell used by the concrete scenarios below. -/
def xCell : Cell :=
  some "bg-test"

/-- A ten-wide row with the listed columns settled. -/
def rowOf (cols : List Nat) : List Cell :=
  (List.range 10).map fun i => if cols.contains i then xCell else none

/-- A session run that stacks five vertical I pieces onto column 5 (the
last lock queues an O piece, whose spawn cells avoid the full column) and
then invokes hold: the hold installs the queued horizontal I piece over
the settled column without any collision check. -/
def heldOverlapState : GameState :=
  holdPiece .I (hardDrop .I (rotateOp true (hardDrop .O (rotateOp true
    (hardDrop .I (rotateOp true (hardDrop .I (rotateOp true
      (hardDrop .I (rotateOp true (startGame .I .I initialState)))))))))))

/-- A grid whose bottom row misses only column 9 and whose spawn shadow
holds a three-cell column at column 3, rows 0 to 2. -/
def gapBottomGrid : Grid :=
  [rowOf [3], rowOf [3], rowOf [3]] ++ List.replicate 16 (rowOf []) ++
    [rowOf [0, 1, 2, 3, 4, 5, 6, 7, 8]]

/-- A vertical I piece placed to fill column 9 of the four bottom rows. -/
def verticalIPiece : Tetromino :=
  ⟨.I, rotateShape (TETROMINOES .I).shape true, (TETROMINOES .I).color,
    ⟨7, 16⟩⟩

/-- A playing state whose lock clears the bottom row and whose queued
piece then collides at its spawn position over the shifted column. -/
def gameOverClearState : GameState :=
  { grid := gapBottomGrid
    currentPiece := some verticalIPiece
    nextPiece := getRandomPiece 10 .I
    heldPiece := none
    canHold := true
    isFrozen := false
    score := 0
    lines := 0
    level := 1
    status := Status.PLAYING
    config := ⟨10, 20, 500⟩ }

/-- A started session whose active I piece has been moved near the
floor, so that locking it succeeds in installing the queued piece. -/
def midFieldState : GameState :=
  { startGame .I .I initialState with
      currentPiece := some
        { getRandomPiece INITIAL_WIDTH .I with position := ⟨3, 16⟩ } }

/-- A one-cell piece used by the small line-clear scenario. -/
def fillPiece : Tetromino :=
  ⟨.O, [[1]], "bg-fill", ⟨1, 1⟩⟩

/-- A three-row grid whose middle row lacks one cell; stamping fillPiece
completes and clears that row. -/
def fillGrid : Grid :=
  [[none, none], [xCell, none], [xCell, xCell]]

/-- A freshly started session with the frozen flag switched on, used to
exercise hardDrop under freeze. -/
def frozenDropState : GameState :=
  { startGame .I .I initialState with isFrozen := true }

theorem checkCollision_iff (p : Tetromino) (g : Grid) (mx my : Int)
    (os : Option Shape) :
    checkCollision p g mx my os = true ↔ collides p g mx my (os.getD p.shape) := by
  unfold checkCollision collides
  simp only [List.any_eq_true, List.mem_range, Bool.and_eq_true,
    Bool.or_eq_true, decide_eq_true_eq, bne_iff_ne, ne_eq, exists_prop,
    or_assoc]

theorem not_collides_iff (p : Tetromino) (g : Grid) :
    ¬ collides p g 0 0 p.shape ↔ pieceInBounds p g := by
  unfold collides pieceInBounds
  push_neg
  simp only [add_zero, not_lt, not_le, Option.not_isSome_iff_eq_none]

theorem pieceInBounds_iff (p : Tetromino) (g : Grid) :
    pieceInBounds p g ↔ checkCollision p g 0 0 none = false := by
  rw [← not_collides_iff, ← Bool.not_eq_true, checkCollision_iff]
  simp only [Option.getD_none]

theorem checkCollision_translate (p : Tetromino) (g : Grid) (dx dy : Int) :
    checkCollision
        { p with position := ⟨p.position.x + dx, p.position.y + dy⟩ }
        g 0 0 none =
      checkCollision p g dx dy none := by
  unfold checkCollision
  simp only [Option.getD_none]
  refine congrArg _ (funext fun y => congrArg _ (funext fun x => ?_))
  dsimp only
  ring_nf

/-- A rotation candidate passed as override shape checks exactly like the
piece carrying that shape. -/
theorem checkCollision_withShape (p : Tetromino) (g : Grid) (sh : Shape) :
    checkCollision p g 0 0 (some sh) =
      checkCollision { p with shape := sh } g 0 0 none := rfl

/-! Preservation of the active-piece safety property. -/

theorem lockPiece_of_none (t : TetrominoType) (s : GameState)
    (h : s.currentPiece = none) : lockPiece t s = s := by
  unfold lockPiece
  rw [h]

theorem lockPiece_invariant (t : TetrominoType) (s : GameState) (p : Tetromino)
    (hp : s.currentPiece = some p) : invariant (lockPiece t s) := by
  unfold lockPiece
  rw [hp]
  dsimp only
  split
  · intro q hq
    exact Option.noConfusion hq
  · intro q hq
    cases Option.some.inj hq
    rw [pieceInBounds_iff]
    simp_all

theorem move_invariant (dx dy : Int) (t : TetrominoType) (s : GameState)
    (hs : invariant s) : invariant (move dx dy t s) := by
  unfold move
  cases hp : s.currentPiece with
  | none => exact hs
  | some p =>
    dsimp only
    split
    · exact hs
    · split
      · exact hs
      · split
        · split
          · exact lockPiece_invariant t s p hp
          · exact hs
        · intro q hq
          cases Option.some.inj hq
          rw [pieceInBounds_iff, checkCollision_translate]
          simp_all

theorem rotateOp_invariant (cw : Bool) (s : GameState)
    (hs : invariant s) : invariant (rotateOp cw s) := by
  unfold rotateOp
  cases hp : s.currentPiece with
  | none => exact hs
  | some p =>
    dsimp only
    split
    · exact hs
    · split
      · exact hs
      · intro q hq
        cases Option.some.inj hq
        rw [pieceInBounds_iff, ← checkCollision_withShape]
        simp_all

theorem toggleFreeze_invariant (s : GameState)
    (hs : invariant s) : invariant (toggleFreeze s) := by
  unfold toggleFreeze
  split
  · exact hs
  · intro q hq
    exact hs q hq

theorem hardDrop_invariant (t : TetrominoType) (s : GameState)
    (hs : invariant s) : invariant (hardDrop t s) := by
  unfold hardDrop
  cases hp : s.currentPiece with
  | none => exact hs
  | some p =>
    dsimp only
    split
    · exact hs
    · exact lockPiece_invariant t _ _ rfl

theorem moveToEndGo_safe (p : Tetromino) (g : Grid) (dx : Int) :
    ∀ (fuel : Nat) (f : Int),
      (f = 0 ∨ checkCollision p g f 0 none = false) →
      (moveToEndGo p g dx fuel f = 0 ∨
       checkCollision p g (moveToEndGo p g dx fuel f) 0 none = false) := by
  intro fuel
  induction fuel with
  | zero => intro f hf; exact hf
  | succ n ih =>
    intro f hf
    rw [moveToEndGo]
    by_cases hc : checkCollision p g (f + dx) 0 none = true
    · rw [if_pos hc]
      exact hf
    · rw [if_neg hc]
      exact ih (f + dx) (Or.inr (by rwa [Bool.not_eq_true] at hc))

theorem moveToEnd_invariant (dx : Int) (s : GameState)
    (hs : invariant s) : invariant (moveToEnd dx s) := by
  unfold moveToEnd
  cases hp : s.currentPiece with
  | none => exact hs
  | some p =>
    dsimp only
    split
    · exact hs
    · intro q hq
      cases Option.some.inj hq
      have hpos : (⟨p.position.x +
          moveToEndGo p s.grid dx (moveToEndFuel p s.grid) 0,
          p.position.y⟩ : Position) =
          ⟨p.position.x +
            moveToEndGo p s.grid dx (moveToEndFuel p s.grid) 0,
           p.position.y + 0⟩ := by
        simp
      rw [pieceInBounds_iff, hpos, checkCollision_translate]
      rcases moveToEndGo_safe p s.grid dx (moveToEndFuel p s.grid) 0
          (Or.inl rfl) with h0 | h1
      · rw [h0]
        have hbase := hs p hp
        rw [pieceInBounds_iff] at hbase
        exact hbase
      · exact h1

theorem startGame_invariant (t1 t2 : TetrominoType) :
    invariant (startGame t1 t2 initialState) := by
  cases t1 <;> cases t2 <;> decide

theorem lockPiece_level (t : TetrominoType) (s : GameState)
    (hs : levelMatchesLines s) : levelMatchesLines (lockPiece t s) := by
  unfold lockPiece
  cases hp : s.currentPiece with
  | none => exact hs
  | some p =>
    dsimp only
    split
    · exact hs
    · rfl

theorem move_level (dx dy : Int) (t : TetrominoType) (s : GameState)
    (hs : levelMatchesLines s) : levelMatchesLines (move dx dy t s) := by
  unfold move
  cases hp : s.currentPiece with
  | none => exact hs
  | some p =>
    dsimp only
    split
    · exact hs
    · split
      · exact hs
      · split
        · split
          · exact lockPiece_level t s hs
          · exact hs
        · exact hs

theorem rotateOp_level (cw : Bool) (s : GameState)
    (hs : levelMatchesLines s) : levelMatchesLines (rotateOp cw s) := by
  unfold rotateOp
  cases hp : s.currentPiece with
  | none => exact hs
  | some p =>
    dsimp only
    split
    · exact hs
    · split
      · exact hs
      · exact hs

theorem hardDrop_level (t : TetrominoType) (s : GameState)
    (hs : levelMatchesLines s) : levelMatchesLines (hardDrop t s) := by
  unfold hardDrop
  cases hp : s.currentPiece with
  | none => exact hs
  | some p =>
    dsimp only
    split
    · exact hs
    · exact lockPiece_level t _ hs

theorem holdPiece_level (t : TetrominoType) (s : GameState)
    (hs : levelMatchesLines s) : levelMatchesLines (holdPiece t s) := by
  unfold holdPiece
  cases hp : s.currentPiece with
  | none => exact hs
  | some p =>
    dsimp only
    split
    · exact hs
    · split <;> exact hs

theorem toggleFreeze_level (s : GameState)
    (hs : levelMatchesLines s) : levelMatchesLines (toggleFreeze s) := by
  unfold toggleFreeze
  split <;> exact hs

theorem moveToEnd_level (dir : Int) (s : GameState)
    (hs : levelMatchesLines s) : levelMatchesLines (moveToEnd dir s) := by
  unfold moveToEnd
  cases hp : s.currentPiece with
  | none => exact hs
  | some p =>
    dsimp only
    split <;> exact hs

theorem reachable_level (s : GameState) (h : Reachable s) :
    levelMatchesLines s := by
  induction h with
  | start t1 t2 => unfold levelMatchesLines startGame; simp
  | step hr hstep ih =>
    cases hstep with
    | mv dx dy t => exact move_level dx dy t _ ih
    | mte dir => exact moveToEnd_level dir _ ih
    | rot cw => exact rotateOp_level cw _ ih
    | hd t => exact hardDrop_level t _ ih
    | hld t => exact holdPiece_level t _ ih
    | tgl => exact toggleFreeze_level _ ih
    | grav t => exact move_level 0 1 t _ ih


/-! Claim theorems. -/

/-- C1: for every grid, piece, offset and optional override shape,
checkCollision returns true iff some occupied cell of the (override or
current) shape, placed at the piece's position plus the offset, lands at
a column < 0, a column at or past the grid width, a row at or past the
grid height, or on a settled cell at a non-negative row; the settled-cell
disjunct carries the non-negative-row guard, so cells at negative rows
collide only with side walls and the floor bound, never with settled
content. -/
theorem C1_checkCollision_characterization :
    ∀ (p : Tetromino) (g : Grid) (mx my : Int) (os : Option Shape),
      checkCollision p g mx my os = true ↔
        collides p g mx my (os.getD p.shape) :=
  checkCollision_iff

/-- C2 counterexample: a state reachable from a started session by
rotate, hardDrop and hold operations in which the active piece overlaps a
settled cell, so the claimed invariant is false; hold installs the queued
piece without consulting the collision detector. -/
theorem C2_counterexample :
    Reachable heldOverlapState ∧ ¬ invariant heldOverlapState := by
  constructor
  · have h0 : Reachable (startGame .I .I initialState) :=
      Reachable.start .I .I
    have h1 := Reachable.step h0 (GameStep.rot true _)
    have h2 := Reachable.step h1 (GameStep.hd .I _)
    have h3 := Reachable.step h2 (GameStep.rot true _)
    have h4 := Reachable.step h3 (GameStep.hd .I _)
    have h5 := Reachable.step h4 (GameStep.rot true _)
    have h6 := Reachable.step h5 (GameStep.hd .I _)
    have h7 := Reachable.step h6 (GameStep.rot true _)
    have h8 := Reachable.step h7 (GameStep.hd .O _)
    have h9 := Reachable.step h8 (GameStep.rot true _)
    have h10 := Reachable.step h9 (GameStep.hd .I _)
    exact Reachable.step h10 (GameStep.hld .I _)
  · decide

/-- C2 (amended): in every state reachable from a started session by
move, moveToEnd, rotate, hardDrop, toggleFreeze and gravity descent —
that is, every listed operation except hold — an active piece, when
present, has no occupied cell over a settled cell at a visible row and
all its occupied cells lie within the side walls and above the floor;
hold is excluded because it installs pieces without a collision check. -/
theorem C2_amended_invariant :
    ∀ s : GameState, ReachableSansHold s → invariant s := by
  intro s h
  induction h with
  | start t1 t2 => exact startGame_invariant t1 t2
  | step hr hstep ih =>
    cases hstep with
    | mv dx dy t => exact move_invariant dx dy t _ ih
    | mte dir => exact moveToEnd_invariant dir _ ih
    | rot cw => exact rotateOp_invariant cw _ ih
    | hd t => exact hardDrop_invariant t _ ih
    | tgl => exact toggleFreeze_invariant _ ih
    | grav t => exact move_invariant 0 1 t _ ih

/-- C2 witness: the amended invariant at a concretely started session. -/
theorem C2_witness : invariant (startGame .I .I initialState) :=
  C2_amended_invariant _ (ReachableSansHold.start .I .I)

/-- C6: in every reachable state the level equals one more than a tenth
of the lines counter, so 10 accumulated lines give level 2 and 23 give
level 3; a game-over lock changes neither lines nor level, so the
relation persists there as well. -/
theorem C6_level_progression :
    ∀ s : GameState, Reachable s →
      (s.level = s.lines / 10 + 1 ∧
       (s.lines = 10 → s.level = 2) ∧
       (s.lines = 23 → s.level = 3)) := by
  intro s h
  have hl : s.level = s.lines / 10 + 1 := reachable_level s h
  refine ⟨hl, ?_, ?_⟩ <;> intro h10 <;> rw [hl, h10]

/-- C6 witness: the level relation at a concretely started session. -/
theorem C6_witness :
    (startGame .I .I initialState).level =
      (startGame .I .I initialState).lines / 10 + 1 :=
  (C6_level_progression _ (Reachable.start .I .I)).1

/-- Full case analysis of lockPiece on a state with an active piece:
either the queued piece collides at its spawn position and the session
ends (grid cleared, piece gone, score folded, lines and level retained),
or the queued piece is installed (all counters folded, hold re-enabled,
freeze reset).  In both branches the score grows by the SCORING table
value of the cleared-row count times the pre-resolution level (the table
yields 0 for 0 rows). -/
theorem lockPiece_spec (t : TetrominoType) (s : GameState) (p : Tetromino)
    (hp : s.currentPiece = some p) :
    (checkCollision
        { s.nextPiece with
            position := ⟨((s.config.width / 2 : Nat) : Int) - 2, 0⟩ }
        (clearFullRows s.config.height s.config.width (stamp p s.grid))
        0 0 none = true ∧
      lockPiece t s = { s with
        grid := clearFullRows s.config.height s.config.width (stamp p s.grid)
        currentPiece := none
        status := Status.GAME_OVER
        score := s.score + SCORING (clearedCount (stamp p s.grid)) * s.level
        isFrozen := false }) ∨
    (checkCollision
        { s.nextPiece with
            position := ⟨((s.config.width / 2 : Nat) : Int) - 2, 0⟩ }
        (clearFullRows s.config.height s.config.width (stamp p s.grid))
        0 0 none = false ∧
      lockPiece t s = { s with
        grid := clearFullRows s.config.height s.config.width (stamp p s.grid)
        currentPiece := some
          { s.nextPiece with
              position := ⟨((s.config.width / 2 : Nat) : Int) - 2, 0⟩ }
        nextPiece := getRandomPiece s.config.width t
        canHold := true
        isFrozen := false
        score := s.score + SCORING (clearedCount (stamp p s.grid)) * s.level
        lines := s.lines + clearedCount (stamp p s.grid)
        level := (s.lines + clearedCount (stamp p s.grid)) / 10 + 1 }) := by
  have he : (if 0 < clearedCount (stamp p s.grid) then
      SCORING (clearedCount (stamp p s.grid)) * s.level else 0) =
      SCORING (clearedCount (stamp p s.grid)) * s.level := by
    rcases Nat.eq_zero_or_pos (clearedCount (stamp p s.grid)) with h0 | h1
    · rw [h0]; simp [SCORING]
    · rw [if_pos h1]
  unfold lockPiece
  rw [hp]
  dsimp only
  split
  · left
    constructor
    · assumption
    · rw [he]
  · right
    constructor
    · rwa [← Bool.not_eq_true]
    · rw [he]

/-- C3 counterexample: a playing state whose lock clears the bottom row
and whose queued piece then collides at spawn; the result is game over
with the score folded in, yet the lines counter is NOT increased by the
cleared-row count, contradicting the claim. -/
theorem C3_counterexample :
    gameOverClearState.status = Status.PLAYING ∧
    clearedCount (stamp verticalIPiece gameOverClearState.grid) = 1 ∧
    (lockPiece .I gameOverClearState).status = Status.GAME_OVER ∧
    (lockPiece .I gameOverClearState).currentPiece = none ∧
    (lockPiece .I gameOverClearState).score =
      gameOverClearState.score + SCORING 1 * gameOverClearState.level ∧
    ¬ ((lockPiece .I gameOverClearState).lines =
        gameOverClearState.lines +
          clearedCount (stamp verticalIPiece gameOverClearState.grid)) := by
  decide

/-- C3 (amended): when the queued piece collides at its spawn position on
the post-clear grid, lockPiece returns a state with status GAME_OVER and
no active piece whose score has grown by the SCORING table value of the
cleared-row count times the pre-resolution level, while the lines counter
and the level retain their pre-lock values (they are not folded in the
game-over branch). -/
theorem C3_amended :
    ∀ (t : TetrominoType) (s : GameState) (p : Tetromino),
      s.currentPiece = some p →
      checkCollision
          { s.nextPiece with
              position := ⟨((s.config.width / 2 : Nat) : Int) - 2, 0⟩ }
          (clearFullRows s.config.height s.config.width (stamp p s.grid))
          0 0 none = true →
      ((lockPiece t s).status = Status.GAME_OVER ∧
       (lockPiece t s).currentPiece = none ∧
       (lockPiece t s).grid =
         clearFullRows s.config.height s.config.width (stamp p s.grid) ∧
       (lockPiece t s).score =
         s.score + SCORING (clearedCount (stamp p s.grid)) * s.level ∧
       (lockPiece t s).lines = s.lines ∧
       (lockPiece t s).level = s.level) := by
  intro t s p hp hc
  rcases lockPiece_spec t s p hp with ⟨h1, h2⟩ | ⟨h1, h2⟩
  · rw [h2]
    exact ⟨rfl, rfl, rfl, rfl, rfl, rfl⟩
  · rw [h1] at hc
    exact Bool.noConfusion hc

/-- C3 witness: the amended game-over lock behaviour at the concrete
scenario state. -/
theorem C3_witness :
    (lockPiece .I gameOverClearState).status = Status.GAME_OVER ∧
    (lockPiece .I gameOverClearState).currentPiece = none ∧
    (lockPiece .I gameOverClearState).grid =
      clearFullRows gameOverClearState.config.height
        gameOverClearState.config.width
        (stamp verticalIPiece gameOverClearState.grid) ∧
    (lockPiece .I gameOverClearState).score =
      gameOverClearState.score +
        SCORING (clearedCount (stamp verticalIPiece gameOverClearState.grid)) *
          gameOverClearState.level ∧
    (lockPiece .I gameOverClearState).lines = gameOverClearState.lines ∧
    (lockPiece .I gameOverClearState).level = gameOverClearState.level :=
  C3_amended .I gameOverClearState verticalIPiece rfl (by decide)

/-- C5: every lock grows the score by exactly the SCORING table value of
the number of rows cleared by this resolution (0 for no rows) multiplied
by the level in effect before the resolution recomputes it; the table
values give the claimed instances 1 row at level 1 = 100, 4 rows at
level 1 = 800 and 2 rows at level 3 = 900. -/
theorem C5_score_delta :
    ∀ (t : TetrominoType) (s : GameState) (p : Tetromino),
      s.currentPiece = some p →
      ((lockPiece t s).score =
        s.score + SCORING (clearedCount (stamp p s.grid)) * s.level ∧
       SCORING 0 = 0 ∧ SCORING 1 = 100 ∧ SCORING 2 = 300 ∧
       SCORING 3 = 500 ∧ SCORING 4 = 800 ∧
       SCORING 1 * 1 = 100 ∧ SCORING 4 * 1 = 800 ∧ SCORING 2 * 3 = 900) := by
  intro t s p hp
  refine ⟨?_, by decide⟩
  rcases lockPiece_spec t s p hp with ⟨h1, h2⟩ | ⟨h1, h2⟩ <;> rw [h2]

/-- C5 witness: the score delta equation at a concretely started and
immediately locked session. -/
theorem C5_witness :
    (lockPiece .I (startGame .I .I initialState)).score =
      (startGame .I .I initialState).score +
        SCORING (clearedCount (stamp (getRandomPiece INITIAL_WIDTH .I)
          (startGame .I .I initialState).grid)) *
          (startGame .I .I initialState).level :=
  (C5_score_delta .I (startGame .I .I initialState)
    (getRandomPiece INITIAL_WIDTH .I) rfl).1

/-- C7 counterexample: for the O piece at width 10 the generator places
the piece at x = 3 (the hard-coded floor(width/2) - 2), not at
floor(width/2) - floor(shapeWidth/2) = 4 as claimed. -/
theorem C7_counterexample :
    (getRandomPiece 10 .O).position.x = 3 ∧
    ((10 / 2 : Nat) : Int) -
      (((((TETROMINOES .O).shape.headD []).length / 2 : Nat)) : Int) = 4 ∧
    ¬ ((getRandomPiece 10 .O).position.x =
        ((10 / 2 : Nat) : Int) -
          (((((TETROMINOES .O).shape.headD []).length / 2 : Nat)) : Int)) := by
  decide

/-- C7 (amended): the generated piece carries the catalog shape and color
of its kind and spawns at x = floor(width/2) - 2 (independent of the
shape width), y = 0; likewise the piece a lock installs is the queued
piece relocated to x = floor(width/2) - 2, y = 0. -/
theorem C7_amended :
    (∀ (w : Nat) (t : TetrominoType),
      getRandomPiece w t =
        ⟨t, (TETROMINOES t).shape, (TETROMINOES t).color,
          ⟨((w / 2 : Nat) : Int) - 2, 0⟩⟩) ∧
    (∀ (t : TetrominoType) (s : GameState) (p q : Tetromino),
      s.currentPiece = some p →
      (lockPiece t s).currentPiece = some q →
      (q.type = s.nextPiece.type ∧ q.shape = s.nextPiece.shape ∧
       q.color = s.nextPiece.color ∧
       q.position = ⟨((s.config.width / 2 : Nat) : Int) - 2, 0⟩)) := by
  constructor
  · intro w t
    rfl
  · intro t s p q hp hq
    rcases lockPiece_spec t s p hp with ⟨h1, h2⟩ | ⟨h1, h2⟩
    · rw [h2] at hq
      exact Option.noConfusion hq
    · rw [h2] at hq
      have hq2 := Option.some.inj hq
      subst hq2
      exact ⟨rfl, rfl, rfl, rfl⟩

/-- C7 witness: the install clause at a concretely started and locked
session. -/
theorem C7_witness :
    (getRandomPiece INITIAL_WIDTH .I).type = midFieldState.nextPiece.type ∧
    (getRandomPiece INITIAL_WIDTH .I).shape = midFieldState.nextPiece.shape ∧
    (getRandomPiece INITIAL_WIDTH .I).color = midFieldState.nextPiece.color ∧
    (getRandomPiece INITIAL_WIDTH .I).position =
      ⟨((midFieldState.config.width / 2 : Nat) : Int) - 2, 0⟩ :=
  C7_amended.2 .I midFieldState
    { getRandomPiece INITIAL_WIDTH .I with position := ⟨3, 16⟩ }
    (getRandomPiece INITIAL_WIDTH .I) rfl (by decide)

/-- C9: a successful hold clears the can-hold flag and a second hold
before any lock returns the state unchanged; the flag turns true again
exactly when a lock installs the queued piece: an installing lock sets it,
a lock that installs nothing leaves it, rotate, freeze-toggle, moveToEnd
preserve it, move changes it only by delegating to lockPiece, hardDrop
either preserves it or ends in an installed piece with the flag set, and
hold itself never turns it on. -/
theorem C9_hold_lifecycle :
    (∀ (t u : TetrominoType) (s : GameState) (p : Tetromino),
        s.status = Status.PLAYING → s.currentPiece = some p →
        s.canHold = true →
        ((holdPiece t s).canHold = false ∧
         holdPiece u (holdPiece t s) = holdPiece t s)) ∧
    (∀ (t : TetrominoType) (s : GameState) (p q : Tetromino),
        s.currentPiece = some p →
        (lockPiece t s).currentPiece = some q →
        (lockPiece t s).canHold = true) ∧
    (∀ (t : TetrominoType) (s : GameState),
        (lockPiece t s).currentPiece = none →
        (lockPiece t s).canHold = s.canHold) ∧
    (∀ (cw : Bool) (s : GameState), (rotateOp cw s).canHold = s.canHold) ∧
    (∀ (s : GameState), (toggleFreeze s).canHold = s.canHold) ∧
    (∀ (dir : Int) (s : GameState),
        (moveToEnd dir s).canHold = s.canHold) ∧
    (∀ (dx dy : Int) (t : TetrominoType) (s : GameState),
        (move dx dy t s).canHold = s.canHold ∨
        move dx dy t s = lockPiece t s) ∧
    (∀ (t : TetrominoType) (s : GameState),
        (hardDrop t s).canHold = s.canHold ∨
        ((hardDrop t s).currentPiece ≠ none ∧
         (hardDrop t s).canHold = true)) ∧
    (∀ (t : TetrominoType) (s : GameState),
        (holdPiece t s).canHold = true → s.canHold = true) := by
  refine ⟨?_, ?_, ?_, ?_, ?_, ?_, ?_, ?_, ?_⟩
  · intro t u s p hst hp hch
    unfold holdPiece
    rw [hp]
    dsimp only
    have hcond : ¬(s.canHold = false ∨ s.status ≠ Status.PLAYING) := by
      simp [hch, hst]
    rw [if_neg hcond]
    cases hh : s.heldPiece with
    | none =>
      dsimp only
      constructor
      · rfl
      · simp [holdPiece]
    | some held =>
      dsimp only
      constructor
      · rfl
      · simp [holdPiece]
  · intro t s p q hp hq
    rcases lockPiece_spec t s p hp with ⟨h1, h2⟩ | ⟨h1, h2⟩
    · rw [h2] at hq
      exact Option.noConfusion hq
    · rw [h2]
  · intro t s hnone
    cases hp : s.currentPiece with
    | none => rw [lockPiece_of_none t s hp]
    | some p =>
      rcases lockPiece_spec t s p hp with ⟨h1, h2⟩ | ⟨h1, h2⟩
      · rw [h2]
      · rw [h2] at hnone
        exact Option.noConfusion hnone
  · intro cw s
    unfold rotateOp
    cases hp : s.currentPiece with
    | none => rfl
    | some p =>
      dsimp only
      split
      · rfl
      · split
        · rfl
        · rfl
  · intro s
    unfold toggleFreeze
    split
    · rfl
    · rfl
  · intro dir s
    unfold moveToEnd
    cases hp : s.currentPiece with
    | none => rfl
    | some p =>
      dsimp only
      split
      · rfl
      · rfl
  · intro dx dy t s
    unfold move
    cases hp : s.currentPiece with
    | none => left; rfl
    | some p =>
      dsimp only
      split
      · left; rfl
      · split
        · left; rfl
        · split
          · split
            · right; rfl
            · left; rfl
          · left; rfl
  · intro t s
    unfold hardDrop
    cases hp : s.currentPiece with
    | none => left; rfl
    | some p =>
      dsimp only
      split
      · left; rfl
      · have hspec := lockPiece_spec t { s with currentPiece := some { p with position := ⟨p.position.x, p.position.y + (dropDistance p s.grid : Int)⟩ } } { p with position := ⟨p.position.x, p.position.y + (dropDistance p s.grid : Int)⟩ } rfl
        rcases hspec with ⟨h1, h2⟩ | ⟨h1, h2⟩
        · left
          rw [h2]
        · right
          constructor
          · rw [h2]
            exact fun h => Option.noConfusion h
          · rw [h2]
  · intro t s
    unfold holdPiece
    cases hp : s.currentPiece with
    | none => exact fun h => h
    | some p =>
      dsimp only
      split
      · exact fun h => h
      · cases hh : s.heldPiece with
        | none =>
          dsimp only
          exact fun h => Bool.noConfusion h
        | some held =>
          dsimp only
          exact fun h => Bool.noConfusion h

/-- C9 witness: the hold clauses at a concretely started session. -/
theorem C9_witness :
    (holdPiece .I (startGame .I .I initialState)).canHold = false ∧
    holdPiece .O (holdPiece .I (startGame .I .I initialState)) =
      holdPiece .I (startGame .I .I initialState) :=
  C9_hold_lifecycle.1 .I .O (startGame .I .I initialState)
    (getRandomPiece INITIAL_WIDTH .I) rfl rfl rfl

theorem dropDistanceGo_safe (p : Tetromino) (g : Grid) :
    ∀ fuel d,
      (∀ k : Nat, 1 ≤ k → k ≤ d →
        checkCollision p g 0 k none = false) →
      ∀ k : Nat, 1 ≤ k → k ≤ dropDistanceGo p g fuel d →
        checkCollision p g 0 k none = false := by
  intro fuel
  induction fuel with
  | zero => intro d h k h1 h2; exact h k h1 h2
  | succ n ih =>
    intro d h k h1 h2
    rw [dropDistanceGo] at h2
    by_cases hc : checkCollision p g 0 ((d : Int) + 1) none = true
    · rw [if_pos hc] at h2
      exact h k h1 h2
    · rw [if_neg hc] at h2
      refine ih (d + 1) ?_ k h1 h2
      intro j hj1 hj2
      rcases Nat.lt_or_ge j (d + 1) with hj | hj
      · exact h j hj1 (by omega)
      · have hjd : j = d + 1 := by omega
        subst hjd
        rw [Bool.not_eq_true] at hc
        have hcast : ((d + 1 : Nat) : Int) = (d : Int) + 1 := by push_cast; ring
        rw [hcast]
        exact hc

theorem dropDistanceGo_hit (p : Tetromino) (g : Grid) :
    ∀ fuel d,
      (∃ j : Nat, d < j ∧ j ≤ d + fuel ∧
        checkCollision p g 0 (j : Int) none = true) →
      checkCollision p g 0 ((dropDistanceGo p g fuel d : Int) + 1) none = true := by
  intro fuel
  induction fuel with
  | zero =>
    rintro d ⟨j, h1, h2, h3⟩
    omega
  | succ n ih =>
    rintro d ⟨j, h1, h2, h3⟩
    rw [dropDistanceGo]
    by_cases hc : checkCollision p g 0 ((d : Int) + 1) none = true
    · rw [if_pos hc]
      exact hc
    · rw [if_neg hc]
      apply ih
      have hne : j ≠ d + 1 := by
        intro he
        subst he
        have hcast2 : ((d + 1 : Nat) : Int) = (d : Int) + 1 := by omega
        rw [hcast2] at h3
        exact hc h3
      exact ⟨j, by omega, by omega, h3⟩

theorem collision_at_dropFuel (p : Tetromino) (g : Grid) (y0 x0 : Nat)
    (hy : y0 < p.shape.length) (hx : x0 < (p.shape.getD y0 []).length)
    (hc : shapeCell p.shape y0 x0 ≠ 0) :
    checkCollision p g 0 (dropFuel p g : Int) none = true := by
  rw [checkCollision_iff]
  refine ⟨y0, hy, x0, hx, hc, Or.inr (Or.inr (Or.inl ?_))⟩
  unfold dropFuel
  omega

/-- C10: in a playing state with an active piece and the frozen flag set,
hardDrop is not suppressed: it relocates the piece by the drop distance —
which is maximal, every smaller positive descent being collision-free and
one more row colliding — locks there, and (whether or not the lock ends
the game) the resulting frozen flag is false; in particular it is false
whenever the result is not game over. -/
theorem C10_hardDrop_when_frozen :
    ∀ (t : TetrominoType) (s : GameState) (p : Tetromino),
      s.status = Status.PLAYING → s.currentPiece = some p →
      s.isFrozen = true →
      (∃ y, y < p.shape.length ∧ ∃ x, x < (p.shape.getD y []).length ∧
        shapeCell p.shape y x ≠ 0) →
      (hardDrop t s = lockPiece t { s with currentPiece := some { p with position := ⟨p.position.x, p.position.y + (dropDistance p s.grid : Int)⟩ } } ∧
       (∀ k : Nat, 1 ≤ k → k ≤ dropDistance p s.grid →
         checkCollision p s.grid 0 k none = false) ∧
       checkCollision p s.grid 0 ((dropDistance p s.grid : Int) + 1) none = true ∧
       ((hardDrop t s).status ≠ Status.GAME_OVER →
         (hardDrop t s).isFrozen = false)) := by
  intro t s p hst hp hfr hocc
  have heq : hardDrop t s = lockPiece t { s with currentPiece := some { p with position := ⟨p.position.x, p.position.y + (dropDistance p s.grid : Int)⟩ } } := by
    unfold hardDrop
    rw [hp]
    dsimp only
    rw [if_neg (by simp [hst])]
  refine ⟨heq, ?_, ?_, ?_⟩
  · unfold dropDistance
    exact dropDistanceGo_safe p s.grid (dropFuel p s.grid) 0
      (by intro k h1 h2; omega)
  · unfold dropDistance
    apply dropDistanceGo_hit
    obtain ⟨y0, hy, x0, hx, hcell⟩ := hocc
    refine ⟨dropFuel p s.grid, ?_, ?_, ?_⟩
    · unfold dropFuel
      omega
    · omega
    · exact collision_at_dropFuel p s.grid y0 x0 hy hx hcell
  · intro hngo
    rw [heq]
    rcases lockPiece_spec t { s with currentPiece := some { p with position := ⟨p.position.x, p.position.y + (dropDistance p s.grid : Int)⟩ } } { p with position := ⟨p.position.x, p.position.y + (dropDistance p s.grid : Int)⟩ } rfl with ⟨h1, h2⟩ | ⟨h1, h2⟩ <;> rw [h2]

/-- C10 witness: the drop maximality and freeze reset at a concretely
frozen session. -/
theorem C10_witness :
    checkCollision (getRandomPiece INITIAL_WIDTH .I) frozenDropState.grid 0
      ((dropDistance (getRandomPiece INITIAL_WIDTH .I)
        frozenDropState.grid : Int) + 1) none = true ∧
    ((hardDrop .I frozenDropState).status ≠ Status.GAME_OVER →
      (hardDrop .I frozenDropState).isFrozen = false) :=
  have h := C10_hardDrop_when_frozen .I frozenDropState
    (getRandomPiece INITIAL_WIDTH .I) rfl rfl rfl
    ⟨1, by decide, 0, by decide, by decide⟩
  ⟨h.2.2.1, h.2.2.2⟩

theorem padRowsGo_eq (h w : Nat) :
    ∀ fuel (g : Grid), h - g.length ≤ fuel →
      padRowsGo h w fuel g =
        List.replicate (h - g.length) (List.replicate w (none : Cell)) ++ g := by
  intro fuel
  induction fuel with
  | zero =>
    intro g hg
    have h0 : h - g.length = 0 := by omega
    rw [padRowsGo, h0]
    simp
  | succ n ih =>
    intro g hg
    rw [padRowsGo]
    by_cases hlen : g.length < h
    · rw [if_pos hlen]
      rw [ih (List.replicate w (none : Cell) :: g) (by simp; omega)]
      have h1 : h - (List.replicate w (none : Cell) :: g).length =
          h - g.length - 1 := by
        simp
        omega
      rw [h1]
      obtain ⟨k, hk⟩ : ∃ k, h - g.length = k + 1 :=
        ⟨h - g.length - 1, by omega⟩
      rw [hk]
      have h3 : k + 1 - 1 = k := by omega
      rw [h3, List.replicate_succ', List.append_assoc]
      rfl
    · rw [if_neg hlen]
      have h0 : h - g.length = 0 := by omega
      rw [h0]
      simp

theorem setCell_length (g : Grid) (y x : Int) (c : String) :
    (setCell g y x c).length = g.length := by
  unfold setCell
  split
  · exact List.length_set g _ _
  · rfl

theorem setCell_width (g : Grid) (y x : Int) (c : String) (w : Nat)
    (hw : ∀ r ∈ g, r.length = w) : ∀ r ∈ setCell g y x c, r.length = w := by
  intro r hr
  unfold setCell at hr
  split at hr
  · by_cases hy2 : y.toNat < g.length
    · rcases List.mem_or_eq_of_mem_set hr with h | h
      · exact hw r h
      · subst h
        rw [List.length_set]
        have hmem : g.getD y.toNat [] ∈ g := by
          rw [List.getD_eq_getElem g [] hy2]
          exact List.getElem_mem hy2
        exact hw _ hmem
    · rw [List.set_eq_of_length_le (by omega)] at hr
      exact hw r hr
  · exact hw r hr

theorem foldl_preserve {α : Type} (P : Grid → Prop) (f : Grid → α → Grid)
    (hstep : ∀ g a, P g → P (f g a)) :
    ∀ (l : List α) (g : Grid), P g → P (l.foldl f g) := by
  intro l
  induction l with
  | nil => intro g hg; exact hg
  | cons a l ih =>
    intro g hg
    exact ih (f g a) (hstep g a hg)

theorem stamp_dims (p : Tetromino) (g : Grid) (w : Nat)
    (hw : ∀ r ∈ g, r.length = w) :
    (stamp p g).length = g.length ∧ ∀ r ∈ stamp p g, r.length = w := by
  unfold stamp
  refine foldl_preserve
    (fun gr => gr.length = g.length ∧ ∀ r ∈ gr, r.length = w)
    _ ?_ _ _ ⟨rfl, hw⟩
  intro g1 y hg1
  refine foldl_preserve
    (fun gr => gr.length = g.length ∧ ∀ r ∈ gr, r.length = w)
    _ ?_ _ _ hg1
  intro g2 x hg2
  dsimp only
  split
  · split
    · refine ⟨?_, ?_⟩
      · rw [setCell_length]
        exact hg2.1
      · exact setCell_width g2 _ _ _ w hg2.2
    · exact hg2
  · exact hg2

/-- C4: clearing the stamped grid removes exactly the full rows, keeps
the remaining rows in order pushed toward the bottom (the result is the
filtered rows appended after freshly inserted empty rows on top), and
restores exactly the configured height and width; no full row remains. -/
theorem C4_line_clear :
    ∀ (hh ww : Nat) (p : Tetromino) (g : Grid),
      g.length = hh → (∀ r ∈ g, r.length = ww) → 0 < ww →
      (clearFullRows hh ww (stamp p g) =
         List.replicate
           (hh - ((stamp p g).filter (fun row => !(isFullRow row))).length)
           (List.replicate ww (none : Cell)) ++
           (stamp p g).filter (fun row => !(isFullRow row)) ∧
       (clearFullRows hh ww (stamp p g)).length = hh ∧
       (∀ r ∈ clearFullRows hh ww (stamp p g), r.length = ww) ∧
       (∀ r ∈ clearFullRows hh ww (stamp p g), isFullRow r = false)) := by
  intro hh ww p g hlen hwid hpos
  obtain ⟨hslen, hswid⟩ := stamp_dims p g ww hwid
  have hfl : ((stamp p g).filter (fun row => !(isFullRow row))).length ≤ hh := by
    calc ((stamp p g).filter (fun row => !(isFullRow row))).length
        ≤ (stamp p g).length := List.length_filter_le _ _
      _ = hh := by rw [hslen, hlen]
  have heq : clearFullRows hh ww (stamp p g) =
      List.replicate
        (hh - ((stamp p g).filter (fun row => !(isFullRow row))).length)
        (List.replicate ww (none : Cell)) ++
        (stamp p g).filter (fun row => !(isFullRow row)) := by
    unfold clearFullRows padRows
    exact padRowsGo_eq hh ww hh _ (by omega)
  refine ⟨heq, ?_, ?_, ?_⟩
  · rw [heq]
    simp only [List.length_append, List.length_replicate]
    omega
  · rw [heq]
    intro r hr
    rcases List.mem_append.mp hr with h | h
    · rw [List.eq_of_mem_replicate h]
      simp
    · exact hswid r (List.mem_of_mem_filter h)
  · rw [heq]
    intro r hr
    rcases List.mem_append.mp hr with h | h
    · rw [List.eq_of_mem_replicate h]
      rw [isFullRow, List.all_eq_false]
      exact ⟨none, List.mem_replicate.mpr ⟨by omega, rfl⟩, by simp⟩
    · have hkeep := List.of_mem_filter h
      simpa using hkeep

/-- C4 witness: the clear pipeline on a concrete three-row grid whose
middle row is completed by the stamped piece. -/
theorem C4_witness :
    (clearFullRows 3 2 (stamp fillPiece fillGrid)).length = 3 ∧
    (∀ r ∈ clearFullRows 3 2 (stamp fillPiece fillGrid),
      isFullRow r = false) :=
  have h := C4_line_clear 3 2 fillPiece fillGrid rfl (by decide) (by decide)
  ⟨h.2.1, h.2.2.2⟩

theorem headD_len (s : Shape) (hs : IsSquareShape s) :
    (s.headD []).length = s.length := by
  cases s with
  | nil => rfl
  | cons r t => exact hs r (List.mem_cons_self r t)

theorem square_row_len (s : Shape) (hs : IsSquareShape s) (i : Nat)
    (hi : i < s.length) : (s.getD i []).length = s.length := by
  rw [List.getD_eq_getElem s [] hi]
  exact hs _ (List.getElem_mem hi)

theorem rotate_len (s : Shape) (hs : IsSquareShape s) :
    (rotateShape s true).length = s.length := by
  unfold rotateShape
  simp only [if_true, List.length_map, List.length_range]
  exact headD_len s hs

theorem rotate_row (s : Shape) (i : Nat) (hi : i < (s.headD []).length) :
    (rotateShape s true).getD i [] =
      (s.map (fun row => row.getD i 0)).reverse := by
  unfold rotateShape
  simp only [if_true]
  rw [List.getD_eq_getElem?_getD, List.getElem?_map, List.getElem?_map,
    List.getElem?_range hi]
  rfl

theorem rotate_square (s : Shape) (hs : IsSquareShape s) :
    IsSquareShape (rotateShape s true) := by
  intro r hr
  rw [rotate_len s hs]
  unfold rotateShape at hr
  simp only [if_true, List.mem_map, List.mem_range] at hr
  obtain ⟨a, ⟨i, hi, rfl⟩, rfl⟩ := hr
  simp

theorem rotate_entry (s : Shape) (hs : IsSquareShape s) (i j : Nat)
    (hi : i < s.length) (hj : j < s.length) :
    ((rotateShape s true).getD i []).getD j 0 =
      (s.getD (s.length - 1 - j) []).getD i 0 := by
  have hm : i < (s.headD []).length := by
    rw [headD_len s hs]
    exact hi
  rw [rotate_row s i hm]
  have hjm : j < (s.map (fun row => row.getD i 0)).length := by
    simp
    omega
  rw [List.getD_eq_getElem?_getD, List.getElem?_reverse hjm]
  simp only [List.length_map]
  rw [List.getElem?_map]
  have hk : s.length - 1 - j < s.length := by omega
  rw [List.getElem?_eq_getElem hk]
  simp only [Option.map_some', Option.getD_some]
  rw [List.getD_eq_getElem s [] hk]

theorem shape_ext (a b : Shape) (hlen : a.length = b.length)
    (hrow : ∀ i, i < a.length →
      (a.getD i []).length = (b.getD i []).length)
    (hentry : ∀ i j, i < a.length → j < (a.getD i []).length →
      (a.getD i []).getD j 0 = (b.getD i []).getD j 0) : a = b := by
  apply List.ext_getElem hlen
  intro i h1 h2
  apply List.ext_getElem
  · rw [← List.getD_eq_getElem a [] h1, ← List.getD_eq_getElem b [] h2]
    exact hrow i h1
  · intro j hj1 hj2
    have he := hentry i j h1 (by
      rw [List.getD_eq_getElem a [] h1]
      exact hj1)
    rw [List.getD_eq_getElem a [] h1, List.getD_eq_getElem b [] h2] at he
    rw [← List.getD_eq_getElem _ 0 hj1, ← List.getD_eq_getElem _ 0 hj2]
    exact he

/-- C8: applying the clockwise rotation transform (transpose, then
reverse each row) four times to any square shape matrix returns the
original matrix. -/
theorem C8_rotate_four_identity :
    ∀ s : Shape, IsSquareShape s →
      rotateShape (rotateShape (rotateShape (rotateShape s true) true) true)
        true = s := by
  intro s hs
  have hs1 : IsSquareShape (rotateShape s true) := rotate_square s hs
  have hs2 : IsSquareShape (rotateShape (rotateShape s true) true) :=
    rotate_square _ hs1
  have hs3 : IsSquareShape
      (rotateShape (rotateShape (rotateShape s true) true) true) :=
    rotate_square _ hs2
  have hs4 : IsSquareShape
      (rotateShape (rotateShape (rotateShape (rotateShape s true) true) true)
        true) :=
    rotate_square _ hs3
  have hl1 : (rotateShape s true).length = s.length := rotate_len s hs
  have hl2 : (rotateShape (rotateShape s true) true).length = s.length := by
    rw [rotate_len _ hs1, hl1]
  have hl3 : (rotateShape (rotateShape (rotateShape s true) true)
      true).length = s.length := by
    rw [rotate_len _ hs2, hl2]
  have hl4 : (rotateShape (rotateShape (rotateShape (rotateShape s true)
      true) true) true).length = s.length := by
    rw [rotate_len _ hs3, hl3]
  apply shape_ext _ _ hl4
  · intro i hi
    have hin : i < s.length := by rw [← hl4]; exact hi
    rw [square_row_len _ hs4 i hi, hl4,
      square_row_len s hs i hin]
  · intro i j hi hj
    have hin : i < s.length := by rw [← hl4]; exact hi
    have hrowlen : ((rotateShape (rotateShape (rotateShape
        (rotateShape s true) true) true) true).getD i []).length =
        s.length := by
      rw [square_row_len _ hs4 i hi, hl4]
    have hjn : j < s.length := by rw [← hrowlen]; exact hj
    have e4 := rotate_entry
      (rotateShape (rotateShape (rotateShape s true) true) true) hs3 i j
      (by rw [hl3]; exact hin) (by rw [hl3]; exact hjn)
    rw [hl3] at e4
    have e3 := rotate_entry (rotateShape (rotateShape s true) true) hs2
      (s.length - 1 - j) i (by rw [hl2]; omega) (by rw [hl2]; exact hin)
    rw [hl2] at e3
    have e2 := rotate_entry (rotateShape s true) hs1
      (s.length - 1 - i) (s.length - 1 - j)
      (by rw [hl1]; omega) (by rw [hl1]; omega)
    rw [hl1] at e2
    have ha : s.length - 1 - (s.length - 1 - j) = j := by omega
    rw [ha] at e2
    have e1 := rotate_entry s hs j (s.length - 1 - i) hjn (by omega)
    have hb : s.length - 1 - (s.length - 1 - i) = i := by omega
    rw [hb] at e1
    exact e4.trans (e3.trans (e2.trans e1))

/-- C8 witness: four clockwise rotations of the catalog T shape. -/
theorem C8_witness :
    rotateShape (rotateShape (rotateShape (rotateShape
      (TETROMINOES .T).shape true) true) true) true =
      (TETROMINOES .T).shape :=
  C8_rotate_four_identity (TETROMINOES .T).shape (by
    intro r hr
    simp only [TETROMINOES, List.mem_cons, List.not_mem_nil, or_false] at hr
    rcases hr with rfl | rfl | rfl <;> rfl)
